import Mathlib

/-!
Verification of the round-resolution engine of a two-player bluffing game
(signal / believe-or-doubt card game).  Every definition below is a shallow
embedding of the corresponding Python function in `app.py`; per-call
randomness is made explicit by passing each random draw as a parameter
(one rational in [0,1) per `random.random()` call, one natural index per
`random.choice` call).  Machine floats are modelled exactly by rationals.
-/

/-- Card ranks of the fixed 12-card deck: K, 6, 3 (`CARD_TO_POINTS` keys). -/
inductive Card
  | K
  | six
  | three
deriving DecidableEq

/-- `CARD_TO_POINTS`: K ↦ 10, 6 ↦ 6, 3 ↦ 3. -/
def cardPoints : Card → Int
  | Card.K => 10
  | Card.six => 6
  | Card.three => 3

/-- Display string of a card, as stored in the Python lists ("K"/"6"/"3"). -/
def cardStr : Card → String
  | Card.K => "K"
  | Card.six => "6"
  | Card.three => "3"

/-- Point sum of a two-card hand (`sum(CARD_TO_POINTS[c] for c in cards)`). -/
def handSum (a b : Card) : Int := cardPoints a + cardPoints b

/-- Strength categories / signal labels.  The Python code uses the strings
"low", "medium", "high", "none" for both true categories and signals. -/
inductive Cat
  | low
  | medium
  | high
  | none
deriving DecidableEq

/-- `categorize(points)` from the source:
16 ↦ high; 12,13 ↦ medium; 6,9 ↦ low; 20 ↦ none; default ↦ none. -/
def categorize (points : Int) : Cat :=
  if points = 16 then Cat.high
  else if points = 12 ∨ points = 13 then Cat.medium
  else if points = 6 ∨ points = 9 then Cat.low
  else if points = 20 then Cat.none
  else Cat.none

/-- `order = {"K":2, "6":1, "3":0}` used by `canon_hand`. -/
def cardOrder : Card → Nat
  | Card.K => 2
  | Card.six => 1
  | Card.three => 0

/-- Lower-cased card string used in the canonical key (`c.lower()`). -/
def cardLower : Card → String
  | Card.K => "k"
  | Card.six => "6"
  | Card.three => "3"

/-- `canon_hand(cards)`: sort the two cards by `cardOrder` descending
(Python `sorted(..., reverse=True)` is stable, so the input order is kept
when the keys tie) and join the lower-cased names with a comma. -/
def canon_hand (a b : Card) : String :=
  let p := if cardOrder a < cardOrder b then (b, a) else (a, b)
  cardLower p.1 ++ "," ++ cardLower p.2

/-- `payoff(truthful, believed, sum_s, sum_r)` from the source, on its
intended boolean domain. -/
def payoff (truthful believed : Bool) (sum_s sum_r : Int) : Int × Int :=
  if truthful && believed then
    if sum_s > sum_r then (1, -1)
    else if sum_s < sum_r then (-1, 1)
    else (0, 0)
  else if !truthful && believed then (1, -1)
  else if truthful && !believed then (1, -1)
  else (-1, 1)

/-- The payoff case table exactly as the specification states it
(§4.6), written from the spec's words in order to compare it with the
source function `payoff`. -/
def resolveSpec (truthful believed : Bool) (sum_s sum_r : Int) : Int × Int :=
  match truthful, believed with
  | true, true =>
    if sum_s > sum_r then (1, -1)
    else if sum_s < sum_r then (-1, 1)
    else (0, 0)
  | false, true => (1, -1)
  | true, false => (1, -1)
  | false, false => (-1, 1)

/-- Claim C1: the payoff resolver is a pure total function (it is a Lean
function), agrees with the specification's case table on every input,
returns a zero-sum pair on every input, and matches the three quoted
examples. -/
theorem payoff_matches_spec (t b : Bool) (x y : Int) :
    payoff t b x y = resolveSpec t b x y ∧
    (payoff t b x y).1 + (payoff t b x y).2 = 0 ∧
    payoff false true 20 16 = (1, -1) ∧
    payoff true true 16 20 = (-1, 1) ∧
    payoff true true 13 13 = (0, 0) := by
  refine ⟨?_, ?_, by decide, by decide, by decide⟩ <;>
    cases t <;> cases b <;> simp [payoff, resolveSpec] <;> split_ifs <;> simp

/-- Claim C6: `canon_hand` is invariant to card order — two hands with the
same rank multiset canonicalize to the identical key; in particular
`canon_hand K 6 = canon_hand 6 K`. -/
theorem canon_hand_order_invariant (a b c d : Card)
    (h : ({a, b} : Multiset Card) = {c, d}) :
    canon_hand a b = canon_hand c d ∧
    canon_hand Card.K Card.six = canon_hand Card.six Card.K := by
  revert h
  cases a <;> cases b <;> cases c <;> cases d <;> decide

/-- Witness for C6 at the concrete hands (K,6) and (6,K). -/
theorem canon_hand_order_invariant_witness :
    (({Card.K, Card.six} : Multiset Card) = {Card.six, Card.K}) ∧
    (canon_hand Card.K Card.six = canon_hand Card.six Card.K ∧
     canon_hand Card.K Card.six = canon_hand Card.six Card.K) :=
  ⟨by decide,
   canon_hand_order_invariant Card.K Card.six Card.six Card.K (by decide)⟩

/-- A row of the signaler policy table: weights for signalling
low / medium / high (`POLICY_P1[h]`, a Python dict in insertion order
low, medium, high). -/
structure Weights (α : Type) where
  low : α
  medium : α
  high : α
deriving DecidableEq

/-- Python-dict lookup on an association list built by repeated
assignment: the last binding of a key wins; `Option.none` models
`k not in d`. -/
def dictGet {κ ν : Type} [DecidableEq κ] (tbl : List (κ × ν)) (k : κ) : Option ν :=
  ((tbl.filter fun p => decide (p.1 = k)).getLast?).map Prod.snd

/-- The cumulative-weight sampling loop of `bne_signal`: walk the entry in
dict order (low, medium, high) accumulating weight; return the first
category whose accumulated weight satisfies `r ≤ acc`; `Option.none`
models falling out of the loop. -/
def sampleEntry {α : Type} [LinearOrderedField α]
    [DecidableRel ((· ≤ ·) : α → α → Prop)] (w : Weights α) (r : α) : Option Cat :=
  if r ≤ w.low then some Cat.low
  else if r ≤ w.low + w.medium then some Cat.medium
  else if r ≤ w.low + w.medium + w.high then some Cat.high
  else Option.none

/-- `BLUFF_PROBS = {"low":0.70, "medium":0.40, "high":0.10, "none":1.00}`. -/
def BLUFF_PROBS : Cat → ℚ
  | Cat.low => 0.70
  | Cat.medium => 0.40
  | Cat.high => 0.10
  | Cat.none => 1.00

/-- `random.choice(l)` with the uniform pick made explicit as an index. -/
def pyChoice (l : List Cat) (idx : Nat) : Cat :=
  l.getD (idx % l.length) Cat.low

/-- The heuristic fallback of `bne_signal` (source lines 126-132):
if the true category is `none` a bluff is mandatory; otherwise bluff with
the category's bluff probability; a non-bluff signals the true category
truthfully, a bluff picks among the other signals. -/
def bne_fallback (a b : Card) (rb : ℚ) (idx : Nat) : Cat × Bool :=
  let own_sum := handSum a b
  let true_cat := categorize own_sum
  if true_cat = Cat.none ∨ rb < BLUFF_PROBS true_cat then
    (pyChoice ([Cat.low, Cat.medium, Cat.high].filter fun s => decide (s ≠ true_cat)) idx,
     false)
  else (true_cat, true)

/-- `total = sum(probs.values()) or 1.0` from `bne_signal`: the Python
`or` turns an all-zero weight total into 1.0. -/
def entryTotal (w : Weights ℚ) : ℚ :=
  if w.low + w.medium + w.high = 0 then 1 else w.low + w.medium + w.high

/-- `bne_signal(cards, POLICY_P1)`: on a table hit, draw
`r = rr * entryTotal` and run the cumulative sampling loop; a sampled
signal is truthful iff it equals the true category.  On a table miss, or
when the loop falls through, use the heuristic fallback. -/
def bne_signal (a b : Card) (tbl : List (String × Weights ℚ)) (rr rb : ℚ)
    (idx : Nat) : Cat × Bool :=
  match dictGet tbl (canon_hand a b) with
  | some probs =>
    match sampleEntry probs (rr * entryTotal probs) with
    | some sig => (sig, decide (categorize (handSum a b) = sig))
    | Option.none => bne_fallback a b rb idx
  | Option.none => bne_fallback a b rb idx

/-- `pc_choose_signal(cards, optimal_prob, POLICY_P1)`: with probability
`optimal_prob` defer to `bne_signal` (tag "optimal"); otherwise a `none`
hand bluffs uniformly over the three signals, and other hands flip a flat
50/50 coin between the truthful signal and a uniform bluff
(tag "random"). -/
def pc_choose_signal (a b : Card) (optimal_prob : ℚ)
    (tbl : List (String × Weights ℚ)) (rs rr rb rc : ℚ) (idxO idxR : Nat) :
    Cat × Bool × String :=
  if rs < optimal_prob then
    let p := bne_signal a b tbl rr rb idxO
    (p.1, p.2, "optimal")
  else
    let true_cat := categorize (handSum a b)
    if true_cat = Cat.none then
      (pyChoice [Cat.low, Cat.medium, Cat.high] idxR, false, "random")
    else if rc < 0.5 then (true_cat, true, "random")
    else
      (pyChoice ([Cat.low, Cat.medium, Cat.high].filter fun s => decide (s ≠ true_cat)) idxR,
       false, "random")

/-- A signal sampled from a table entry is always one of the three
claimable signals, never the `none` category. -/
theorem sampleEntry_ne_cat_none {α : Type} [LinearOrderedField α]
    [DecidableRel ((· ≤ ·) : α → α → Prop)] {w : Weights α} {r : α} {s : Cat}
    (h : sampleEntry w r = some s) : s ≠ Cat.none := by
  unfold sampleEntry at h
  split_ifs at h <;> simp_all <;> (subst h; decide)

/-- On a `none`-category hand `bne_signal` never reports a truthful
signal, on the equilibrium path or on either fallback path. -/
theorem bne_signal_none_not_truthful (a b : Card) (tbl : List (String × Weights ℚ))
    (rr rb : ℚ) (idx : Nat) (h : categorize (handSum a b) = Cat.none) :
    (bne_signal a b tbl rr rb idx).2 = false := by
  unfold bne_signal
  cases hd : dictGet tbl (canon_hand a b) with
  | none => simp [bne_fallback, h]
  | some probs =>
    cases hs : sampleEntry probs (rr * entryTotal probs) with
    | none => simp [hs, bne_fallback, h]
    | some sig =>
      have hne := sampleEntry_ne_cat_none hs
      simp only [hs]
      simp [h]
      exact fun hh => hne hh.symm

/-- Claim C3: for every hand whose true category is `none`, neither
`bne_signal` (equilibrium sampling, loop fall-through, heuristic) nor
`pc_choose_signal` (optimal path, skill-roll-failed random path) ever
returns truthful = true, for all values of the random draws. -/
theorem none_category_never_truthful (a b : Card) (tbl : List (String × Weights ℚ))
    (optimal_prob rs rr rb rc : ℚ) (idxO idxR : Nat)
    (h : categorize (handSum a b) = Cat.none) :
    (bne_signal a b tbl rr rb idxO).2 = false ∧
    (pc_choose_signal a b optimal_prob tbl rs rr rb rc idxO idxR).2.1 = false := by
  refine ⟨bne_signal_none_not_truthful a b tbl rr rb idxO h, ?_⟩
  unfold pc_choose_signal
  split_ifs with h1
  · exact bne_signal_none_not_truthful a b tbl rr rb idxO h
  all_goals simp [h]

/-- Witness for C3 at the concrete hand (K,K) (sum 20, category `none`). -/
theorem none_category_never_truthful_witness :
    categorize (handSum Card.K Card.K) = Cat.none ∧
    ((bne_signal Card.K Card.K [] 0 0 0).2 = false ∧
     (pc_choose_signal Card.K Card.K 1 [] 0 0 0 0 0 0).2.1 = false) :=
  ⟨by decide,
   none_category_never_truthful Card.K Card.K [] 1 0 0 0 0 0 0 (by decide)⟩

/-- Claim C5 counterexample: with an all-zero signaler entry for the hand
(K,6) and random draw rr = 0, `bne_signal` returns signal low from the
table path, while the heuristic fallback at the same remaining draws
(empty table) returns a truthful high — so the entry is not treated as
absent for every value of the draw. -/
theorem zero_weight_entry_counterexample :
    bne_signal Card.K Card.six [(canon_hand Card.K Card.six, ⟨0, 0, 0⟩)] 0 0.5 0
      = (Cat.low, false) ∧
    bne_signal Card.K Card.six [] 0 0.5 0 = (Cat.high, true) := by
  constructor
  · unfold bne_signal
    rw [show dictGet [(canon_hand Card.K Card.six, (⟨0, 0, 0⟩ : Weights ℚ))]
          (canon_hand Card.K Card.six) = some ⟨0, 0, 0⟩ from rfl]
    norm_num [entryTotal, sampleEntry, handSum, cardPoints, categorize]
    decide
  · unfold bne_signal
    rw [show dictGet ([] : List (String × Weights ℚ)) (canon_hand Card.K Card.six)
          = Option.none from rfl]
    norm_num [bne_fallback, handSum, cardPoints, categorize, BLUFF_PROBS]
    decide

/-- Claim C5 amended: an all-zero signaler entry never raises (the
embedding is a total function; the source avoids division entirely via
`total = sum or 1.0`), and for every random draw rr with 0 < rr the
sampling loop falls through and the heuristic fallback is used; only the
draw rr = 0 returns from the table path. -/
theorem zero_weight_entry_fallback (a b : Card) (tbl : List (String × Weights ℚ))
    (rr rb : ℚ) (idx : Nat)
    (hz : dictGet tbl (canon_hand a b) = some ⟨0, 0, 0⟩) (hr : 0 < rr) :
    bne_signal a b tbl rr rb idx = bne_fallback a b rb idx := by
  unfold bne_signal
  rw [hz]
  norm_num [sampleEntry, entryTotal, hr.not_le]

/-- Witness for C5 (amended) at the hand (K,6), all-zero entry, rr = 1/2. -/
theorem zero_weight_entry_fallback_witness :
    (dictGet [(canon_hand Card.K Card.six, (⟨0, 0, 0⟩ : Weights ℚ))]
       (canon_hand Card.K Card.six) = some ⟨0, 0, 0⟩ ∧ (0 : ℚ) < 1/2) ∧
    bne_signal Card.K Card.six [(canon_hand Card.K Card.six, ⟨0, 0, 0⟩)] (1/2) 0 0
      = bne_fallback Card.K Card.six 0 0 :=
  ⟨⟨rfl, by norm_num⟩,
   zero_weight_entry_fallback Card.K Card.six
     [(canon_hand Card.K Card.six, ⟨0, 0, 0⟩)] (1/2) 0 0 rfl (by norm_num)⟩

/-- The sampling loop returns low exactly when the draw is at most the
low weight. -/
theorem sampleEntry_eq_low_iff {α : Type} [LinearOrderedField α]
    [DecidableRel ((· ≤ ·) : α → α → Prop)] (w : Weights α) (r : α) :
    sampleEntry w r = some Cat.low ↔ r ≤ w.low := by
  unfold sampleEntry
  split_ifs <;> simp_all

/-- The sampling loop returns medium exactly when the draw first lands in
the medium accumulation step. -/
theorem sampleEntry_eq_medium_iff {α : Type} [LinearOrderedField α]
    [DecidableRel ((· ≤ ·) : α → α → Prop)] (w : Weights α) (r : α) :
    sampleEntry w r = some Cat.medium ↔ ¬ r ≤ w.low ∧ r ≤ w.low + w.medium := by
  unfold sampleEntry
  split_ifs <;> simp_all

/-- The sampling loop returns high exactly when the draw first lands in
the high accumulation step. -/
theorem sampleEntry_eq_high_iff {α : Type} [LinearOrderedField α]
    [DecidableRel ((· ≤ ·) : α → α → Prop)] (w : Weights α) (r : α) :
    sampleEntry w r = some Cat.high ↔
      ¬ r ≤ w.low ∧ ¬ r ≤ w.low + w.medium ∧ r ≤ w.low + w.medium + w.high := by
  unfold sampleEntry
  split_ifs <;> simp_all

/-- A set squeezed between an open and the corresponding closed interval
has the interval's volume. -/
theorem volume_eq_of_between (S : Set ℝ) (a b : ℝ)
    (h1 : Set.Ioo a b ⊆ S) (h2 : S ⊆ Set.Icc a b) :
    MeasureTheory.volume S = ENNReal.ofReal (b - a) := by
  apply le_antisymm
  · calc MeasureTheory.volume S ≤ MeasureTheory.volume (Set.Icc a b) :=
          MeasureTheory.measure_mono h2
      _ = ENNReal.ofReal (b - a) := Real.volume_Icc
  · calc ENNReal.ofReal (b - a) = MeasureTheory.volume (Set.Ioo a b) :=
          Real.volume_Ioo.symm
      _ ≤ MeasureTheory.volume S := MeasureTheory.measure_mono h1

/-- Claim C4: with the draw r uniform on [0, total), cumulative-weight
sampling selects each signal with probability weight / total: the set of
draws yielding each signal has Lebesgue volume equal to that signal's
weight, and its normalized volume is weight / total. -/
theorem equilibrium_sampling_distribution (w : Weights ℝ)
    (hl : 0 ≤ w.low) (hmed : 0 ≤ w.medium) (hhigh : 0 ≤ w.high)
    (hpos : 0 < w.low + w.medium + w.high) :
    (MeasureTheory.volume {r : ℝ | r ∈ Set.Ico (0 : ℝ) (w.low + w.medium + w.high) ∧
        sampleEntry w r = some Cat.low} = ENNReal.ofReal w.low ∧
     MeasureTheory.volume {r : ℝ | r ∈ Set.Ico (0 : ℝ) (w.low + w.medium + w.high) ∧
        sampleEntry w r = some Cat.medium} = ENNReal.ofReal w.medium ∧
     MeasureTheory.volume {r : ℝ | r ∈ Set.Ico (0 : ℝ) (w.low + w.medium + w.high) ∧
        sampleEntry w r = some Cat.high} = ENNReal.ofReal w.high) ∧
    (MeasureTheory.volume {r : ℝ | r ∈ Set.Ico (0 : ℝ) (w.low + w.medium + w.high) ∧
        sampleEntry w r = some Cat.low} /
      MeasureTheory.volume (Set.Ico (0 : ℝ) (w.low + w.medium + w.high)) =
        ENNReal.ofReal (w.low / (w.low + w.medium + w.high)) ∧
     MeasureTheory.volume {r : ℝ | r ∈ Set.Ico (0 : ℝ) (w.low + w.medium + w.high) ∧
        sampleEntry w r = some Cat.medium} /
      MeasureTheory.volume (Set.Ico (0 : ℝ) (w.low + w.medium + w.high)) =
        ENNReal.ofReal (w.medium / (w.low + w.medium + w.high)) ∧
     MeasureTheory.volume {r : ℝ | r ∈ Set.Ico (0 : ℝ) (w.low + w.medium + w.high) ∧
        sampleEntry w r = some Cat.high} /
      MeasureTheory.volume (Set.Ico (0 : ℝ) (w.low + w.medium + w.high)) =
        ENNReal.ofReal (w.high / (w.low + w.medium + w.high))) := by
  have hvl : MeasureTheory.volume {r : ℝ | r ∈ Set.Ico (0 : ℝ) (w.low + w.medium + w.high) ∧
      sampleEntry w r = some Cat.low} = ENNReal.ofReal w.low := by
    have := volume_eq_of_between
      {r : ℝ | r ∈ Set.Ico (0 : ℝ) (w.low + w.medium + w.high) ∧
        sampleEntry w r = some Cat.low} 0 w.low
      (by
        intro r hr
        simp only [Set.mem_Ioo] at hr
        simp only [Set.mem_setOf_eq, Set.mem_Ico, sampleEntry_eq_low_iff]
        constructor
        · constructor
          · linarith [hr.1]
          · linarith [hr.2]
        · linarith [hr.2])
      (by
        intro r hr
        simp only [Set.mem_setOf_eq, Set.mem_Ico, sampleEntry_eq_low_iff] at hr
        simp only [Set.mem_Icc]
        exact ⟨hr.1.1, hr.2⟩)
    rw [this, sub_zero]
  have hvm : MeasureTheory.volume {r : ℝ | r ∈ Set.Ico (0 : ℝ) (w.low + w.medium + w.high) ∧
      sampleEntry w r = some Cat.medium} = ENNReal.ofReal w.medium := by
    have := volume_eq_of_between
      {r : ℝ | r ∈ Set.Ico (0 : ℝ) (w.low + w.medium + w.high) ∧
        sampleEntry w r = some Cat.medium} w.low (w.low + w.medium)
      (by
        intro r hr
        simp only [Set.mem_Ioo] at hr
        simp only [Set.mem_setOf_eq, Set.mem_Ico, sampleEntry_eq_medium_iff, not_le]
        refine ⟨⟨by linarith [hr.1], by linarith [hr.2]⟩, hr.1, le_of_lt hr.2⟩)
      (by
        intro r hr
        simp only [Set.mem_setOf_eq, Set.mem_Ico, sampleEntry_eq_medium_iff, not_le] at hr
        simp only [Set.mem_Icc]
        exact ⟨le_of_lt hr.2.1, hr.2.2⟩)
    rw [this]
    congr 1
    ring
  have hvh : MeasureTheory.volume {r : ℝ | r ∈ Set.Ico (0 : ℝ) (w.low + w.medium + w.high) ∧
      sampleEntry w r = some Cat.high} = ENNReal.ofReal w.high := by
    have := volume_eq_of_between
      {r : ℝ | r ∈ Set.Ico (0 : ℝ) (w.low + w.medium + w.high) ∧
        sampleEntry w r = some Cat.high}
      (w.low + w.medium) (w.low + w.medium + w.high)
      (by
        intro r hr
        simp only [Set.mem_Ioo] at hr
        simp only [Set.mem_setOf_eq, Set.mem_Ico, sampleEntry_eq_high_iff, not_le]
        refine ⟨⟨by linarith [hr.1], hr.2⟩, by linarith [hr.1], hr.1, le_of_lt hr.2⟩)
      (by
        intro r hr
        simp only [Set.mem_setOf_eq, Set.mem_Ico, sampleEntry_eq_high_iff, not_le] at hr
        simp only [Set.mem_Icc]
        exact ⟨le_of_lt hr.2.2.1, hr.2.2.2⟩)
    rw [this]
    congr 1
    ring
  have hT : MeasureTheory.volume (Set.Ico (0 : ℝ) (w.low + w.medium + w.high)) =
      ENNReal.ofReal (w.low + w.medium + w.high) := by
    rw [Real.volume_Ico, sub_zero]
  refine ⟨⟨hvl, hvm, hvh⟩, ?_, ?_, ?_⟩
  · rw [hvl, hT, ENNReal.ofReal_div_of_pos hpos]
  · rw [hvm, hT, ENNReal.ofReal_div_of_pos hpos]
  · rw [hvh, hT, ENNReal.ofReal_div_of_pos hpos]

/-- Witness for C4 at the specification's example entry
{low:1, medium:1, high:2}: the signal distribution is
(1/4, 1/4, 2/4) = (0.25, 0.25, 0.50). -/
theorem equilibrium_sampling_distribution_witness :
    ((0 : ℝ) ≤ 1 ∧ (0 : ℝ) ≤ 1 ∧ (0 : ℝ) ≤ 2 ∧
      (0 : ℝ) < (1 : ℝ) + 1 + 2) ∧
    ((MeasureTheory.volume {r : ℝ | r ∈ Set.Ico (0 : ℝ) ((1 : ℝ) + 1 + 2) ∧
        sampleEntry (⟨1, 1, 2⟩ : Weights ℝ) r = some Cat.low} = ENNReal.ofReal 1 ∧
      MeasureTheory.volume {r : ℝ | r ∈ Set.Ico (0 : ℝ) ((1 : ℝ) + 1 + 2) ∧
        sampleEntry (⟨1, 1, 2⟩ : Weights ℝ) r = some Cat.medium} = ENNReal.ofReal 1 ∧
      MeasureTheory.volume {r : ℝ | r ∈ Set.Ico (0 : ℝ) ((1 : ℝ) + 1 + 2) ∧
        sampleEntry (⟨1, 1, 2⟩ : Weights ℝ) r = some Cat.high} = ENNReal.ofReal 2) ∧
     (MeasureTheory.volume {r : ℝ | r ∈ Set.Ico (0 : ℝ) ((1 : ℝ) + 1 + 2) ∧
        sampleEntry (⟨1, 1, 2⟩ : Weights ℝ) r = some Cat.low} /
       MeasureTheory.volume (Set.Ico (0 : ℝ) ((1 : ℝ) + 1 + 2)) =
         ENNReal.ofReal ((1 : ℝ) / ((1 : ℝ) + 1 + 2)) ∧
      MeasureTheory.volume {r : ℝ | r ∈ Set.Ico (0 : ℝ) ((1 : ℝ) + 1 + 2) ∧
        sampleEntry (⟨1, 1, 2⟩ : Weights ℝ) r = some Cat.medium} /
       MeasureTheory.volume (Set.Ico (0 : ℝ) ((1 : ℝ) + 1 + 2)) =
         ENNReal.ofReal ((1 : ℝ) / ((1 : ℝ) + 1 + 2)) ∧
      MeasureTheory.volume {r : ℝ | r ∈ Set.Ico (0 : ℝ) ((1 : ℝ) + 1 + 2) ∧
        sampleEntry (⟨1, 1, 2⟩ : Weights ℝ) r = some Cat.high} /
       MeasureTheory.volume (Set.Ico (0 : ℝ) ((1 : ℝ) + 1 + 2)) =
         ENNReal.ofReal ((2 : ℝ) / ((1 : ℝ) + 1 + 2)))) :=
  ⟨⟨by norm_num, by norm_num, by norm_num, by norm_num⟩,
   equilibrium_sampling_distribution ⟨1, 1, 2⟩
     (by norm_num) (by norm_num) (by norm_num) (by norm_num)⟩

/-- `label_category` from the source (German display labels, default "??"
is unreachable since `Cat` covers all four strings). -/
def label_category : Cat → String
  | Cat.high => "Hoch"
  | Cat.medium => "Mittel"
  | Cat.low => "Tief"
  | Cat.none => "Überspielt"

/-- `categorize` applied to a possibly-missing sum: Python compares
`None == 16` etc., all of which are false, so `None` lands on the default
branch "none". -/
def categorizePy : Option Int → Cat
  | some v => categorize v
  | Option.none => Cat.none

/-- `payoff` as `finish_round` actually invokes it: `truth` may be the
Python `None` (no signal submitted yet), which is falsy, exactly like
`False`; the sums are only inspected (and would raise a TypeError if
`None`, modelled as `Option.none` result) in the truthful-and-believed
branch that compares them. -/
def payoffPy (truth : Option Bool) (believed : Bool) (sum_s sum_r : Option Int) :
    Option (Int × Int) :=
  if truth = some true ∧ believed then
    match sum_s, sum_r with
    | some a, some b =>
      some (if a > b then (1, -1) else if a < b then (-1, 1) else (0, 0))
    | _, _ => Option.none
  else if truth ≠ some true ∧ believed then some (1, -1)
  else if truth = some true ∧ ¬ believed then some (1, -1)
  else some (-1, 1)

/-- One row of `st.session_state.logs`, with the fields of the dict built
in `finish_round`.  (The source stores `round(optimal_prob, 2)`; the raw
value is recorded here — no claim inspects this field, and in every
reachable state the value is an exact multiple of 0.25 anyway.) -/
structure LogRow where
  round : Int
  human_role : String
  p1_cards : String
  p2_cards : String
  p1_sum : Option Int
  p2_sum : Option Int
  p1_category : String
  p2_category : String
  signal : String
  truthful : Int
  responder_believed : Int
  pc_p1_policy : String
  pc_p2_policy : String
  delta_p1 : Int
  delta_p2 : Int
  p1_pts : Int
  p2_pts : Int
  human_pts : Int
  pc_pts : Int
  optimal_prob : ℚ
deriving DecidableEq

/-- The Streamlit session state of the game.  Fields that `init_state`
sets to `None` are `Option`-typed. -/
structure GameState where
  round : Int
  p1_pts : Int
  p2_pts : Int
  human_pts : Int
  pc_pts : Int
  human_is_p1 : Bool
  optimal_prob : ℚ
  p1_cards : Option (List Card)
  p2_cards : Option (List Card)
  p1_sum : Option Int
  p2_sum : Option Int
  cur_sig : Option Cat
  truth : Option Bool
  pc_p1_policy : Option String
  pc_p2_policy : Option String
  awaiting_response : Bool
  finished : Bool
  logs : List LogRow
deriving DecidableEq

/-- `init_state()` on a fresh (empty) session: every key is absent, so
every default is installed. -/
def init_state : GameState where
  round := 0
  p1_pts := 20
  p2_pts := 20
  human_pts := 20
  pc_pts := 20
  human_is_p1 := true
  optimal_prob := 1
  p1_cards := Option.none
  p2_cards := Option.none
  p1_sum := Option.none
  p2_sum := Option.none
  cur_sig := Option.none
  truth := Option.none
  pc_p1_policy := Option.none
  pc_p2_policy := Option.none
  awaiting_response := false
  finished := false
  logs := []

/-- Point sum of a drawn hand (`draw_two_cards` returns the cards and
this sum). -/
def sumCards (cards : List Card) : Int := (cards.map cardPoints).sum

/-- `new_round()` with the two drawn hands passed explicitly: bump the
round counter, flip the role after round 1, deal, and clear the
per-round fields.  The log is untouched. -/
def new_round (s : GameState) (c1 c2 : List Card) : GameState :=
  let roundN := s.round + 1
  let hp1 := if roundN > 1 then !s.human_is_p1 else s.human_is_p1
  { s with
    round := roundN
    human_is_p1 := hp1
    p1_cards := some c1
    p1_sum := some (sumCards c1)
    p2_cards := some c2
    p2_sum := some (sumCards c2)
    cur_sig := Option.none
    truth := Option.none
    pc_p1_policy := some (if hp1 then "human" else "")
    pc_p2_policy := some (if hp1 then "" else "human")
    awaiting_response := false
    finished := false }

/-- `finish_round(believed, ...)`: compute the payoff, update the role
and person scores, append the log row, mark the round finished.  The
source contains no validation of any kind; the only failure paths
(modelled as `Option.none`) are Python TypeErrors: comparing `None` sums
inside `payoff`, or joining `None` card lists — none of which involve the
presence of a signal.  (The source mutates the scores before building the
row; the two steps are modelled atomically since no claim looks at a
state left behind by a TypeError.) -/
def finish_round (believed : Bool) (s : GameState) : Option GameState :=
  match payoffPy s.truth believed s.p1_sum s.p2_sum with
  | Option.none => Option.none
  | some dd =>
    match s.p1_cards, s.p2_cards with
    | some c1, some c2 =>
      let ds := dd.1
      let dr := dd.2
      let p1N := s.p1_pts + ds
      let p2N := s.p2_pts + dr
      let humanN := s.human_pts + (if s.human_is_p1 then ds else dr)
      let pcN := s.pc_pts + (if s.human_is_p1 then dr else ds)
      let row : LogRow := {
        round := s.round
        human_role := if s.human_is_p1 then "P1" else "P2"
        p1_cards := String.intercalate "/" (c1.map cardStr)
        p2_cards := String.intercalate "/" (c2.map cardStr)
        p1_sum := s.p1_sum
        p2_sum := s.p2_sum
        p1_category := label_category (categorizePy s.p1_sum)
        p2_category := label_category (categorizePy s.p2_sum)
        signal := match s.cur_sig with
          | some c => label_category c
          | Option.none => ""
        truthful := if s.truth = some true then 1 else 0
        responder_believed := if believed then 1 else 0
        pc_p1_policy := s.pc_p1_policy.getD ""
        pc_p2_policy := s.pc_p2_policy.getD ""
        delta_p1 := ds
        delta_p2 := dr
        p1_pts := p1N
        p2_pts := p2N
        human_pts := humanN
        pc_pts := pcN
        optimal_prob := s.optimal_prob }
      some { s with
        p1_pts := p1N
        p2_pts := p2N
        human_pts := humanN
        pc_pts := pcN
        logs := s.logs ++ [row]
        finished := true }
    | _, _ => Option.none

/-- The "Neues Spiel (Reset)" handler: delete every session key (so
`init_state` re-installs every default) and start a new round. -/
def resetGame (c1 c2 : List Card) : GameState := new_round init_state c1 c2

/-- The start of a fresh session in `main`: `init_state()` followed by
the automatic first round (`if round == 0: new_round()`). -/
def freshSessionStart (c1 c2 : List Card) : GameState :=
  if init_state.round = 0 then new_round init_state c1 c2 else init_state

/-- A dealt round state with no signal chosen yet: the state right after
`new_round` on a fresh session, hands (K,6) and (6,3). -/
def sNoSig : GameState := new_round init_state [Card.K, Card.six] [Card.six, Card.three]

/-- Claim C2 counterexample: in a dealt round state with no signal
(`cur_sig` and `truth` both `None`), `finish_round` does not raise — it
returns a new state with one appended log row (empty signal, truthful 0)
and changed scores (21/19). -/
theorem finish_before_signal_counterexample :
    sNoSig.cur_sig = Option.none ∧ sNoSig.truth = Option.none ∧
    (finish_round true sNoSig).map
        (fun t => (t.logs.length, t.p1_pts, t.p2_pts,
                   t.logs.map LogRow.signal, t.logs.map LogRow.truthful))
      = some (1, 21, 19, [""], [0]) :=
  ⟨rfl, rfl, rfl⟩

/-- Claim C2 amended: `finish_round` performs no signal-presence
validation.  In every dealt round state in which no signal exists
(`truth = None`, `cur_sig = None`), it silently processes the round —
Python's falsy `None` makes `payoff` take the bluff branches — appending
exactly one log row with an empty signal field and truthful = 0, and
moving the scores by the bluff payoff (P1 +1/P2 -1 if believed,
P1 -1/P2 +1 if doubted). -/
theorem finish_before_signal_processes (s : GameState) (believed : Bool)
    (c1 c2 : List Card) (h1 : s.p1_cards = some c1) (h2 : s.p2_cards = some c2)
    (ht : s.truth = Option.none) (hc : s.cur_sig = Option.none) :
    ∃ t, finish_round believed s = some t ∧
      t.logs.length = s.logs.length + 1 ∧
      t.p1_pts = s.p1_pts + (if believed then 1 else -1) ∧
      t.p2_pts = s.p2_pts + (if believed then -1 else 1) ∧
      (t.logs.getLast?).map (fun row => (row.signal, row.truthful))
        = some ("", 0) := by
  have hp : payoffPy s.truth believed s.p1_sum s.p2_sum
      = some (if believed then ((1 : Int), (-1 : Int)) else (-1, 1)) := by
    rw [ht]
    cases believed <;> simp [payoffPy]
  unfold finish_round
  rw [hp, h1, h2]
  refine ⟨_, rfl, ?_, ?_, ?_, ?_⟩
  · simp
  · cases believed <;> simp
  · cases believed <;> simp
  · simp [hc, ht, List.getLast?_concat]

/-- Witness for C2 (amended) at the concrete state `sNoSig`. -/
theorem finish_before_signal_processes_witness :
    (sNoSig.p1_cards = some [Card.K, Card.six] ∧
     sNoSig.p2_cards = some [Card.six, Card.three] ∧
     sNoSig.truth = Option.none ∧ sNoSig.cur_sig = Option.none) ∧
    (∃ t, finish_round true sNoSig = some t ∧
      t.logs.length = sNoSig.logs.length + 1 ∧
      t.p1_pts = sNoSig.p1_pts + (if true then 1 else -1) ∧
      t.p2_pts = sNoSig.p2_pts + (if true then -1 else 1) ∧
      (t.logs.getLast?).map (fun row => (row.signal, row.truthful))
        = some ("", 0)) :=
  ⟨⟨rfl, rfl, rfl, rfl⟩,
   finish_before_signal_processes sNoSig true [Card.K, Card.six]
     [Card.six, Card.three] rfl rfl rfl rfl⟩

/-- Claim C9: after a full reset the log is empty and the round counter
equals the value a fresh session starts with (both reset and fresh start
auto-deal round 1). -/
theorem reset_semantics (c1 c2 d1 d2 : List Card) :
    (resetGame c1 c2).logs = [] ∧
    (resetGame c1 c2).round = 1 ∧
    (freshSessionStart d1 d2).round = (resetGame c1 c2).round :=
  ⟨rfl, rfl, rfl⟩

/-- Every payoff `payoff` actually returns is a zero-sum pair, also when
`truth` is the falsy `None`. -/
theorem payoffPy_zero_sum {truth : Option Bool} {believed : Bool}
    {ss sr : Option Int} {dd : Int × Int}
    (h : payoffPy truth believed ss sr = some dd) : dd.1 + dd.2 = 0 := by
  unfold payoffPy at h
  split_ifs at h <;>
    first
    | (cases ss with
       | none => simp_all
       | some a =>
         cases sr with
         | none => simp_all
         | some b =>
           simp only [] at h
           split_ifs at h <;> (injection h with h; subst h; decide))
    | (injection h with h; subst h; decide)

/-- Claim C10: both role scores and both person scores start at 20
(total 40 each), and every successful round resolution preserves both
totals — the payoff is zero-sum and the person deltas are the role deltas
mapped through the current role assignment; `new_round` never touches the
scores. -/
theorem score_conservation :
    (init_state.p1_pts = 20 ∧ init_state.p2_pts = 20 ∧
     init_state.human_pts = 20 ∧ init_state.pc_pts = 20) ∧
    (∀ (s t : GameState) (believed : Bool), finish_round believed s = some t →
      t.p1_pts + t.p2_pts = s.p1_pts + s.p2_pts ∧
      t.human_pts + t.pc_pts = s.human_pts + s.pc_pts) ∧
    (∀ (s : GameState) (c1 c2 : List Card),
      (new_round s c1 c2).p1_pts + (new_round s c1 c2).p2_pts
        = s.p1_pts + s.p2_pts ∧
      (new_round s c1 c2).human_pts + (new_round s c1 c2).pc_pts
        = s.human_pts + s.pc_pts) := by
  refine ⟨⟨rfl, rfl, rfl, rfl⟩, ?_, fun s c1 c2 => ⟨rfl, rfl⟩⟩
  intro s t believed h
  unfold finish_round at h
  cases hp : payoffPy s.truth believed s.p1_sum s.p2_sum with
  | none => rw [hp] at h; exact absurd h (by simp)
  | some dd =>
    rw [hp] at h
    cases hc1 : s.p1_cards with
    | none => rw [hc1] at h; exact absurd h (by simp)
    | some c1 =>
      cases hc2 : s.p2_cards with
      | none => rw [hc1, hc2] at h; exact absurd h (by simp)
      | some c2 =>
        rw [hc1, hc2] at h
        simp only [Option.some.injEq] at h
        subst h
        have hz := payoffPy_zero_sum hp
        cases hb : s.human_is_p1 <;> simp [hb] <;> omega

/-- Witness state for C10: round 1, hands (K,3) and (6,6). -/
def s10 : GameState := new_round init_state [Card.K, Card.three] [Card.six, Card.six]

/-- Witness for C10: one concrete successful resolution preserving both
score totals. -/
theorem score_conservation_witness :
    (finish_round true s10 = some ((finish_round true s10).getD init_state)) ∧
    (((finish_round true s10).getD init_state).p1_pts +
       ((finish_round true s10).getD init_state).p2_pts
         = s10.p1_pts + s10.p2_pts ∧
     ((finish_round true s10).getD init_state).human_pts +
       ((finish_round true s10).getD init_state).pc_pts
         = s10.human_pts + s10.pc_pts) :=
  ⟨rfl, score_conservation.2.1 s10 ((finish_round true s10).getD init_state) true rfl⟩

/-- `SIG_INT_TO_DE = {"low":"tief", "medium":"mittel", "high":"hoch"}`;
the source dict has no entry for "none" (a lookup would raise KeyError),
and no caller ever passes a `none` signal. -/
def sigIntToDe : Cat → String
  | Cat.low => "tief"
  | Cat.medium => "mittel"
  | Cat.high => "hoch"
  | Cat.none => ""

/-- `SIGNAL_REF = {"high":16.0, "medium":12.5, "low":7.5}`; the source
dict has no entry for "none" (a lookup would raise KeyError), and no
caller ever passes a `none` signal. -/
def SIGNAL_REF : Cat → ℚ
  | Cat.high => 16.0
  | Cat.medium => 12.5
  | Cat.low => 7.5
  | Cat.none => 0

/-- `BELIEVE_OFFSET = 1.0`. -/
def BELIEVE_OFFSET : ℚ := 1.0

/-- The responder's decision ("believe" / "doubt" strings in the source). -/
inductive Resp
  | believe
  | doubt
deriving DecidableEq

/-- `bne_response(signal, cards, POLICY_P2)`: on a table hit for
(canonical hand, German signal label), believe with the stored
probability; on a miss, believe iff the own sum reaches the signal's
reference value minus the believe offset. -/
def bne_response (signal : Cat) (a b : Card)
    (tbl2 : List ((String × String) × ℚ)) (r : ℚ) : Resp :=
  match dictGet tbl2 (canon_hand a b, sigIntToDe signal) with
  | some p => if r < p then Resp.believe else Resp.doubt
  | Option.none =>
    if (handSum a b : ℚ) ≥ SIGNAL_REF signal - BELIEVE_OFFSET then Resp.believe
    else Resp.doubt

/-- Claim C7: on a responder-table miss the heuristic believes iff the
responder's own hand sum is at least the claimed signal's reference value
(high 16, medium 12.5, low 7.5) minus the fixed offset 1.0 — for every
claimable signal, every two-card hand and every random draw. -/
theorem response_heuristic_threshold (a b : Card) (s : Cat)
    (tbl2 : List ((String × String) × ℚ)) (r : ℚ) (hs : s ≠ Cat.none)
    (hm : dictGet tbl2 (canon_hand a b, sigIntToDe s) = Option.none) :
    (bne_response s a b tbl2 r = Resp.believe ↔
      (handSum a b : ℚ) ≥
        (match s with
         | Cat.high => (16 : ℚ)
         | Cat.medium => 12.5
         | _ => 7.5) - 1) := by
  unfold bne_response
  rw [hm]
  cases s with
  | none => exact absurd rfl hs
  | low =>
    norm_num [SIGNAL_REF, BELIEVE_OFFSET]
    constructor
    · intro h
      by_contra hno
      exact absurd (h (not_le.mp hno)) (by decide)
    · intro h hlt
      exact absurd h (not_le.mpr hlt)
  | medium =>
    norm_num [SIGNAL_REF, BELIEVE_OFFSET]
    constructor
    · intro h
      by_contra hno
      exact absurd (h (not_le.mp hno)) (by decide)
    · intro h hlt
      exact absurd h (not_le.mpr hlt)
  | high =>
    norm_num [SIGNAL_REF, BELIEVE_OFFSET]
    constructor
    · intro h
      by_contra hno
      exact absurd (h (not_le.mp hno)) (by decide)
    · intro h hlt
      exact absurd h (not_le.mpr hlt)

/-- Witness for C7: hand (6,3) (sum 9), signal low, empty table —
9 ≥ 7.5 - 1, so the heuristic believes. -/
theorem response_heuristic_threshold_witness :
    (Cat.low ≠ Cat.none ∧
     dictGet ([] : List ((String × String) × ℚ))
       (canon_hand Card.six Card.three, sigIntToDe Cat.low) = Option.none) ∧
    (bne_response Cat.low Card.six Card.three [] 0 = Resp.believe ↔
      (handSum Card.six Card.three : ℚ) ≥
        (match Cat.low with
         | Cat.high => (16 : ℚ)
         | Cat.medium => 12.5
         | _ => 7.5) - 1) :=
  ⟨⟨by decide, rfl⟩,
   response_heuristic_threshold Card.six Card.three Cat.low [] 0
     (by decide) rfl⟩

/-- One CSV cell as `load_policies` consumes it with
`float(row.get(col, 0) or 0)`: a numeric value passes through; a missing
column or empty/NaN-like falsy value becomes 0; a non-empty non-numeric
string makes `float` raise ValueError. -/
inductive Cell
  | num (q : ℚ)
  | empty
  | bad
deriving DecidableEq

/-- The result of `float(cell or 0)`: `Option.none` models the raised
ValueError. -/
def parseCell : Cell → Option ℚ
  | Cell.num q => some q
  | Cell.empty => some 0
  | Cell.bad => Option.none

/-- A row of the signaler-policy CSV; `hand` is
`str(row.get("SP1 Hand","")).strip().lower()` (empty when the column is
missing or blank). -/
structure P1Row where
  hand : String
  low : Cell
  medium : Cell
  high : Cell
deriving DecidableEq

/-- A row of the responder-policy CSV. -/
structure P2Row where
  hand : String
  sig : String
  p : Cell
deriving DecidableEq

/-- The `POLICY_P1` loading loop of `load_policies`: skip rows with an
empty hand; parse the three weight cells; a ValueError escapes the `for`
into the surrounding `except: pass`, so the first bad cell keeps the
entries built so far and drops the bad row AND every later row. -/
def load_p1 : List P1Row → List (String × Weights ℚ)
  | [] => []
  | r :: rest =>
    if r.hand = "" then load_p1 rest
    else
      match parseCell r.low, parseCell r.medium, parseCell r.high with
      | some l, some m, some h => (r.hand, ⟨l, m, h⟩) :: load_p1 rest
      | _, _, _ => []

/-- The `POLICY_P2` loading loop: skip rows with an empty hand or signal;
a ValueError on the probability cell aborts the remaining rows. -/
def load_p2 : List P2Row → List ((String × String) × ℚ)
  | [] => []
  | r :: rest =>
    if r.hand = "" ∨ r.sig = "" then load_p2 rest
    else
      match parseCell r.p with
      | some q => ((r.hand, r.sig), q) :: load_p2 rest
      | Option.none => []

/-- `pd.read_csv` on a missing/unreadable file raises into
`except: pass`, leaving the table empty. -/
def load_p1_file : Option (List P1Row) → List (String × Weights ℚ)
  | Option.none => []
  | some rows => load_p1 rows

/-- `pd.read_csv` failure for the responder table. -/
def load_p2_file : Option (List P2Row) → List ((String × String) × ℚ)
  | Option.none => []
  | some rows => load_p2 rows

/-- A signaler row that cannot abort the loop: skipped (empty hand) or
with all three cells parseable. -/
def p1RowOk (r : P1Row) : Prop :=
  r.hand = "" ∨
    ((∃ q, parseCell r.low = some q) ∧ (∃ q, parseCell r.medium = some q) ∧
     (∃ q, parseCell r.high = some q))

/-- A responder row that cannot abort the loop. -/
def p2RowOk (r : P2Row) : Prop :=
  r.hand = "" ∨ r.sig = "" ∨ ∃ q, parseCell r.p = some q

/-- The first malformed signaler row keeps the prefix's entries and drops
itself and every later row. -/
theorem load_p1_abort (pre : List P1Row) (bad : P1Row) (rest : List P1Row)
    (hok : ∀ r ∈ pre, p1RowOk r) (hh : bad.hand ≠ "")
    (hbad : parseCell bad.low = Option.none ∨ parseCell bad.medium = Option.none ∨
      parseCell bad.high = Option.none) :
    load_p1 (pre ++ bad :: rest) = load_p1 pre := by
  induction pre with
  | nil =>
    simp only [List.nil_append, load_p1]
    rw [if_neg hh]
    rcases hl : parseCell bad.low with _ | l <;>
      rcases hm2 : parseCell bad.medium with _ | m <;>
        rcases hh2 : parseCell bad.high with _ | h <;> simp_all
  | cons x xs ih =>
    have hxok := hok x (List.mem_cons_self x xs)
    have hok2 : ∀ r ∈ xs, p1RowOk r := fun r hr => hok r (List.mem_cons_of_mem x hr)
    by_cases hx : x.hand = ""
    · simp only [List.cons_append, load_p1]
      rw [if_pos hx, if_pos hx]
      exact ih hok2
    · obtain ⟨⟨l, hl⟩, ⟨m, hm2⟩, ⟨h2, hh2⟩⟩ := hxok.resolve_left hx
      simp only [List.cons_append, load_p1]
      rw [if_neg hx, if_neg hx, hl, hm2, hh2]
      exact congrArg (List.cons _) (ih hok2)

/-- The first malformed responder row keeps the prefix's entries and
drops itself and every later row. -/
theorem load_p2_abort (pre : List P2Row) (bad : P2Row) (rest : List P2Row)
    (hok : ∀ r ∈ pre, p2RowOk r) (hh : bad.hand ≠ "") (hs : bad.sig ≠ "")
    (hbad : parseCell bad.p = Option.none) :
    load_p2 (pre ++ bad :: rest) = load_p2 pre := by
  induction pre with
  | nil =>
    simp only [List.nil_append, load_p2]
    rw [if_neg (by simp [hh, hs]), hbad]
  | cons x xs ih =>
    have hxok := hok x (List.mem_cons_self x xs)
    have hok2 : ∀ r ∈ xs, p2RowOk r := fun r hr => hok r (List.mem_cons_of_mem x hr)
    by_cases hx : x.hand = "" ∨ x.sig = ""
    · simp only [List.cons_append, load_p2]
      rw [if_pos hx, if_pos hx]
      exact ih hok2
    · have hq : ∃ q, parseCell x.p = some q := by
        rcases hxok with h | h | h
        · exact absurd (Or.inl h) hx
        · exact absurd (Or.inr h) hx
        · exact h
      obtain ⟨q, hq⟩ := hq
      simp only [List.cons_append, load_p2]
      rw [if_neg hx, if_neg hx, hq]
      exact congrArg (List.cons _) (ih hok2)

/-- A three-row signaler CSV: a well-formed row, a row whose low-weight
cell is a non-numeric string, then another well-formed row. -/
def exRows : List P1Row :=
  [⟨"k,k", Cell.num 1, Cell.num 0, Cell.num 0⟩,
   ⟨"k,6", Cell.bad, Cell.num 1, Cell.num 0⟩,
   ⟨"6,3", Cell.num 0, Cell.num 1, Cell.num 0⟩]

/-- Claim C8 counterexample: with a malformed second row, the well-formed
third row ("6,3") yields no table entry — rows after the first parse
failure are not skipped individually but dropped wholesale. -/
theorem load_policies_counterexample :
    load_p1 exRows = [("k,k", ⟨1, 0, 0⟩)] ∧
    p1RowOk ⟨"6,3", Cell.num 0, Cell.num 1, Cell.num 0⟩ ∧
    dictGet (load_p1 exRows) "6,3" = Option.none :=
  ⟨rfl, Or.inr ⟨⟨0, rfl⟩, ⟨1, rfl⟩, ⟨0, rfl⟩⟩, rfl⟩

/-- Claim C8 amended: policy loading never aborts the session (the
embeddings are total functions) — a missing file yields an empty table;
a malformed row stops that table's loop, keeping the entries parsed so
far and dropping the malformed row and all later rows; and any lookup
miss falls back to the heuristic (fails open): `bne_signal` uses the
heuristic fallback and `bne_response` uses the confidence threshold. -/
theorem load_policies_fail_open :
    (load_p1_file Option.none = [] ∧ load_p2_file Option.none = []) ∧
    (∀ (pre : List P1Row) (bad : P1Row) (rest : List P1Row),
      (∀ r ∈ pre, p1RowOk r) → bad.hand ≠ "" →
      (parseCell bad.low = Option.none ∨ parseCell bad.medium = Option.none ∨
        parseCell bad.high = Option.none) →
      load_p1 (pre ++ bad :: rest) = load_p1 pre) ∧
    (∀ (pre : List P2Row) (bad : P2Row) (rest : List P2Row),
      (∀ r ∈ pre, p2RowOk r) → bad.hand ≠ "" → bad.sig ≠ "" →
      parseCell bad.p = Option.none →
      load_p2 (pre ++ bad :: rest) = load_p2 pre) ∧
    (∀ (a b : Card) (tbl : List (String × Weights ℚ)) (rr rb : ℚ) (idx : Nat),
      dictGet tbl (canon_hand a b) = Option.none →
      bne_signal a b tbl rr rb idx = bne_fallback a b rb idx) ∧
    (∀ (s : Cat) (a b : Card) (tbl2 : List ((String × String) × ℚ)) (r : ℚ),
      dictGet tbl2 (canon_hand a b, sigIntToDe s) = Option.none →
      bne_response s a b tbl2 r =
        (if (handSum a b : ℚ) ≥ SIGNAL_REF s - BELIEVE_OFFSET then Resp.believe
         else Resp.doubt)) := by
  refine ⟨⟨rfl, rfl⟩, load_p1_abort, load_p2_abort, ?_, ?_⟩
  · intro a b tbl rr rb idx h
    unfold bne_signal
    rw [h]
  · intro s a b tbl2 r h
    unfold bne_response
    rw [h]

/-- Witness for C8 (amended): the abort behavior at the concrete rows of
`exRows`, and heuristic fallback on the empty tables. -/
theorem load_policies_fail_open_witness :
    ((∀ r ∈ [(⟨"k,k", Cell.num 1, Cell.num 0, Cell.num 0⟩ : P1Row)], p1RowOk r) ∧
     (⟨"k,6", Cell.bad, Cell.num 1, Cell.num 0⟩ : P1Row).hand ≠ "" ∧
     parseCell (⟨"k,6", Cell.bad, Cell.num 1, Cell.num 0⟩ : P1Row).low = Option.none) ∧
    load_p1 ([⟨"k,k", Cell.num 1, Cell.num 0, Cell.num 0⟩] ++
        (⟨"k,6", Cell.bad, Cell.num 1, Cell.num 0⟩ : P1Row) ::
          [⟨"6,3", Cell.num 0, Cell.num 1, Cell.num 0⟩])
      = load_p1 [⟨"k,k", Cell.num 1, Cell.num 0, Cell.num 0⟩] ∧
    bne_signal Card.K Card.six [] 0 0 0 = bne_fallback Card.K Card.six 0 0 :=
  ⟨⟨fun r hr => by
      simp only [List.mem_singleton] at hr
      subst hr
      exact Or.inr ⟨⟨1, rfl⟩, ⟨0, rfl⟩, ⟨0, rfl⟩⟩,
    by decide, rfl⟩,
   load_policies_fail_open.2.1 [⟨"k,k", Cell.num 1, Cell.num 0, Cell.num 0⟩]
     ⟨"k,6", Cell.bad, Cell.num 1, Cell.num 0⟩
     [⟨"6,3", Cell.num 0, Cell.num 1, Cell.num 0⟩]
     (fun r hr => by
       simp only [List.mem_singleton] at hr
       subst hr
       exact Or.inr ⟨⟨1, rfl⟩, ⟨0, rfl⟩, ⟨0, rfl⟩⟩)
     (by decide) (Or.inl rfl),
   load_policies_fail_open.2.2.2.1 Card.K Card.six [] 0 0 0 rfl⟩
